import Mathlib

/-!
Verification of the signalpy storage layer (`src/signalpy/storage/store.py`).

The store layer persists domain entities (SignalEvent, Account) as flat
Records through a per-entity marshmallow Schema and a backend Table
abstraction.  The Schema field declarations, table layouts, and the
`put` / `query` / `_make_signal_event` logic are embedded from the source;
the marshmallow dump/load machinery, the backend table, the entity classes
and their guid registries live outside the repository's source tree and are
modelled from the specification where noted.
-/

namespace SignalPy

/-- Primitive scalar values carried in Records (string, integer,
floating-point).  Float payloads flow through the store opaquely (no
arithmetic is ever performed on them), so they are modelled as rationals. -/
inductive Value where
  | str : String → Value
  | int : Int → Value
  | float : Rat → Value
deriving DecidableEq, Repr

/-- A Record: a flat mapping from field name to a primitive scalar, the only
shape exchanged with a backend.  Modelled as an association list. -/
abbrev Record := List (String × Value)

/-- First-match association-list lookup (Python dict access `d[k]`). -/
def lookupA {α : Type} : List (String × α) → String → Option α
  | [], _ => none
  | (k', v) :: rest, k => if k' = k then some v else lookupA rest k

/-- The keys of an association list. -/
def keysA {α : Type} (l : List (String × α)) : List String :=
  l.map Prod.fst

/-- Logical field types declared by a marshmallow Schema
(`mm.fields.Str` / `mm.fields.Int` / `mm.fields.Float`). -/
inductive FieldType where
  | str
  | int
  | float
deriving DecidableEq, Repr

/-- Whether a value has the given logical field type. -/
def Value.hasType : Value → FieldType → Bool
  | .str _, .str => true
  | .int _, .int => true
  | .float _, .float => true
  | _, _ => false

/-- Unknown-key policy of a Schema: `exclude` is `Meta: unknown = mm.EXCLUDE`
(drop unrecognized keys); `raise` is the default when no exclusion is
declared (reject records with unrecognized keys). -/
inductive UnknownPolicy where
  | raise
  | exclude
deriving DecidableEq, Repr

/-- Error kinds surfaced by the store layer (spec §7). -/
inductive SpError where
  | validationError
  | referenceNotFound (guid : String)
  | unsupportedBackend (backend : String)
deriving DecidableEq, Repr

/-- A Serialization Schema: declared fields (name, logical type) in
declaration order, plus the unknown-key policy. -/
structure Schema where
  fields : List (String × FieldType)
  unknown : UnknownPolicy
deriving DecidableEq, Repr

/-- Validate-and-project the declared fields out of a mapping: for each
declared field in declaration order, fail with a ValidationError kind if the
field is missing or its value has the wrong logical type, otherwise emit it.
Shared core of `Schema.dump` and `Schema.load`. -/
def extractFields (fields : List (String × FieldType)) (m : Record) :
    Except SpError Record :=
  match fields with
  | [] => .ok []
  | ft :: rest =>
    match lookupA m ft.1 with
    | none => .error .validationError
    | some v =>
      if v.hasType ft.2 then
        (extractFields rest m).map (fun r => (ft.1, v) :: r)
      else .error .validationError

/-- Modelled from the spec: the marshmallow dump machinery is not part of the
repository source.  Per §4.1, `dump(fields)` takes a mapping of canonical
field values and returns a Record of backend-agnostic primitives, failing
with a ValidationError kind if a required field is missing or of the wrong
logical type. -/
def Schema.dump (s : Schema) (m : Record) : Except SpError Record :=
  extractFields s.fields m

/-- Modelled from the spec: the marshmallow load machinery is not part of the
repository source.  Per §4.1/§7, `load(record)` validates a raw Record into
canonical fields, failing with a ValidationError kind on a missing or
mistyped declared field; keys the schema cannot account for follow the
unknown-key policy: EXCLUDE drops them, the default rejects the record. -/
def Schema.load (s : Schema) (r : Record) : Except SpError Record :=
  match s.unknown with
  | .exclude => extractFields s.fields r
  | .raise =>
    if (keysA r).all (fun k => decide (k ∈ keysA s.fields)) then
      extractFields s.fields r
    else .error .validationError

/-- A mapping is valid for a schema when every key it carries is declared and
every declared field is present with a value of the declared logical type. -/
def fieldOk (m : Record) (ft : String × FieldType) : Bool :=
  match lookupA m ft.1 with
  | some v => v.hasType ft.2
  | none => false

/-- Validity of a field mapping for a schema. -/
def Schema.validFields (s : Schema) (m : Record) : Bool :=
  (keysA m).all (fun k => decide (k ∈ keysA s.fields)) &&
    s.fields.all (fieldOk m)

/-! ## Domain entities and registries

The entity classes (`sp.Device`, `sp.Signal`, `sp.SignalEvent`, `sp.Account`)
are outside the repository source; the spec (§3, OUT OF SCOPE note) pins only
the minimal attributes the store touches, which is what we model. -/

/-- A device; the store touches only its guid. -/
structure Device where
  guid : String
deriving DecidableEq, Repr

/-- A signal; the store touches only its guid. -/
structure Signal where
  guid : String
deriving DecidableEq, Repr

/-- A signal event: time, device reference, signal reference, value
(constructor argument order as in `sp.SignalEvent(time, device, signal, val)`). -/
structure SignalEvent where
  time : Int
  device : Device
  signal : Signal
  val : Rat
deriving DecidableEq, Repr

/-- An account: guid, name, token. -/
structure Account where
  guid : String
  name : String
  token : String
deriving DecidableEq, Repr

/-- Modelled from the spec: the process-wide entity registries
(`sp.Device.by_guid`, `sp.Signal.by_guid`) live in domain-object code outside
the repository source; per §3 they are guid-keyed mappings to live entity
instances, consulted read-only during record-to-entity reconstruction. -/
structure Registries where
  deviceByGuid : String → Option Device
  signalByGuid : String → Option Signal

/-! ## Table layouts (`table_info` literals from the source) -/

/-- One element of a key/value backend's KeySchema list. -/
structure KeySchemaElement where
  attributeName : String
  keyType : String
deriving DecidableEq, Repr

/-- One element of a key/value backend's AttributeDefinitions list. -/
structure AttributeDefinition where
  attributeName : String
  attributeType : String
deriving DecidableEq, Repr

/-- A per-backend Table Layout: relational column list, or key/value key
schema plus attribute definitions. -/
inductive Layout where
  | sqlite (schema : List (String × String))
  | dynamodb (keySchema : List KeySchemaElement)
      (attributeDefinitions : List AttributeDefinition)
deriving DecidableEq, Repr

/-- `SignalEventsStore.table_info` from the source. -/
def SignalEventsStore.tableInfo : List (String × Layout) :=
  [("sqlite", .sqlite
     [("signal_guid", "text"), ("time", "integer"),
      ("device_guid", "text"), ("val", "real")]),
   ("dynamodb", .dynamodb
     [⟨"signal_guid", "HASH"⟩, ⟨"time", "RANGE"⟩]
     [⟨"signal_guid", "S"⟩, ⟨"time", "N"⟩])]

/-- `AccountStore.table_info` from the source. -/
def AccountStore.tableInfo : List (String × Layout) :=
  [("sqlite", .sqlite
     [("guid", "text"), ("name", "text"), ("token", "text")]),
   ("dynamodb", .dynamodb [⟨"guid", "HASH"⟩] [⟨"guid", "S"⟩])]

/-- The KeySchema of the key/value layout declared in a `table_info`. -/
def dynamoKeySchema (info : List (String × Layout)) :
    Option (List KeySchemaElement) :=
  match lookupA info "dynamodb" with
  | some (.dynamodb ks _) => some ks
  | _ => none

/-- Modelled from the spec: the backend-selection step of
`db.create_table(name, table_info)` lives in the db module outside the
repository source; per §7, a database handle whose backend kind has no
declared Table Layout fails with an UnsupportedBackendError kind at
construction time. -/
def Store.selectLayout (info : List (String × Layout)) (backend : String) :
    Except SpError Layout :=
  match lookupA info backend with
  | some l => .ok l
  | none => .error (.unsupportedBackend backend)

/-! ## Schemas (field declarations from the source) -/

/-- `SignalEventsStore.Schema`: time Int, signal_guid Str, device_guid Str,
val Float; no unknown-key exclusion declared. -/
def SignalEventsStore.schema : Schema :=
  ⟨[("time", .int), ("signal_guid", .str),
    ("device_guid", .str), ("val", .float)], .raise⟩

/-- `AccountStore.Schema`: guid Str, name Str, token Str;
`Meta: unknown = mm.EXCLUDE`. -/
def AccountStore.schema : Schema :=
  ⟨[("guid", .str), ("name", .str), ("token", .str)], .exclude⟩

/-! ## Store operations

The Table Abstraction (`signalpy.storage.db`) is outside the repository
source; modelled from the spec (§4.2): the table state is the finite sequence
of stored records, `put(record)` writes the record, `query()` produces every
stored record. -/

/-- Error-propagating map over a record sequence: the generator in `query`
yields entities one by one and an error at one record aborts there. -/
def mapEx {α β : Type} (f : α → Except SpError β) :
    List α → Except SpError (List β)
  | [] => .ok []
  | a :: rest =>
    match f a with
    | .error e => .error e
    | .ok b =>
      match mapEx f rest with
      | .error e => .error e
      | .ok bs => .ok (b :: bs)

/-- The field mapping `SignalEventsStore.put` extracts from a signal event. -/
def SignalEventsStore.fieldsOf (se : SignalEvent) : Record :=
  [("time", .int se.time), ("signal_guid", .str se.signal.guid),
   ("device_guid", .str se.device.guid), ("val", .float se.val)]

/-- `SignalEventsStore.put`: dump the extracted field mapping through the
Schema and forward the record to the table (modelled as appending to the
table's stored-record sequence). -/
def SignalEventsStore.put (se : SignalEvent) (table : List Record) :
    Except SpError (List Record) :=
  (SignalEventsStore.schema.dump (SignalEventsStore.fieldsOf se)).map
    (fun r => table ++ [r])

/-- `SignalEventsStore._make_signal_event`: resolve device_guid then
signal_guid against the registries (a guid absent from its registry fails
with a ReferenceNotFoundError kind) and construct the entity. -/
def SignalEventsStore.makeSignalEvent (reg : Registries) (d : Record) :
    Except SpError SignalEvent :=
  match lookupA d "device_guid" with
  | some (.str dg) =>
    (match reg.deviceByGuid dg with
     | none => .error (.referenceNotFound dg)
     | some device =>
       match lookupA d "signal_guid" with
       | some (.str sg) =>
         (match reg.signalByGuid sg with
          | none => .error (.referenceNotFound sg)
          | some signal =>
            match lookupA d "time", lookupA d "val" with
            | some (.int t), some (.float v) => .ok ⟨t, device, signal, v⟩
            | _, _ => .error .validationError)
       | _ => .error .validationError)
  | _ => .error .validationError

/-- `SignalEventsStore.query`: for each stored record, load it through the
Schema and reconstruct the entity via `_make_signal_event`, yielding it. -/
def SignalEventsStore.query (reg : Registries) (table : List Record) :
    Except SpError (List SignalEvent) :=
  mapEx (fun o => (SignalEventsStore.schema.load o).bind
    (SignalEventsStore.makeSignalEvent reg)) table

/-- The field mapping `AccountStore.put` extracts from an account. -/
def AccountStore.fieldsOf (a : Account) : Record :=
  [("guid", .str a.guid), ("name", .str a.name), ("token", .str a.token)]

/-- `AccountStore.put`: dump the extracted field mapping through the Schema
and forward the record to the table. -/
def AccountStore.put (a : Account) (table : List Record) :
    Except SpError (List Record) :=
  (AccountStore.schema.dump (AccountStore.fieldsOf a)).map
    (fun r => table ++ [r])

/-- `AccountStore.query`: for each stored record, load it through the Schema
and construct `sp.Account(guid=..., name=..., token=...)`. -/
def AccountStore.query (table : List Record) : Except SpError (List Account) :=
  mapEx (fun q => (AccountStore.schema.load q).bind (fun sd =>
    match lookupA sd "guid", lookupA sd "name", lookupA sd "token" with
    | some (.str g), some (.str n), some (.str t) =>
      .ok (⟨g, n, t⟩ : Account)
    | _, _, _ => .error .validationError)) table

/-! ## The `table` attribute of `Store`

`Store.table` is a method on the class; its body `self.table = db.Table(db,
name)` installs an instance attribute of the same name, which shadows the
method on every later lookup.  Python attribute resolution for this one
attribute is embedded directly: instance `__dict__` first, class second. -/

/-- A database handle, carrying its backend-kind discriminator. -/
structure DBHandle where
  backend : String
deriving DecidableEq, Repr

/-- The table object produced by the db module's table factory
`db.Table(db, name)` (modelled from the spec §6: an external collaborator
constructed from the handle and the table name). -/
structure TableObj where
  db : DBHandle
  name : String
deriving DecidableEq, Repr

/-- What `self.table` resolves to: the class-level binding method
`Store.table`, or a bound table object installed in the instance dict. -/
inductive TableAttr where
  | bindingMethod
  | bound (t : TableObj)
deriving DecidableEq, Repr

/-- Whether the resolved attribute is (callable as) the binding method. -/
def TableAttr.isBindingMethod : TableAttr → Bool
  | .bindingMethod => true
  | .bound _ => false

/-- Python attribute lookup for `self.table`: the instance `__dict__` entry
if present, else the class attribute (the method). -/
def Store.lookupTableAttr (instTable : Option TableObj) : TableAttr :=
  match instTable with
  | some t => .bound t
  | none => .bindingMethod

/-- The body of the method `Store.table(self, db, name)`: sets the instance
attribute to `db.Table(db, name)`. -/
def Store.bindTable (db : DBHandle) (name : String)
    (_instTable : Option TableObj) : Option TableObj :=
  some ⟨db, name⟩

/-! ## Association-list and extraction lemmas -/

/-- The value a valid extraction takes for a key (default never reached on
declared keys of a valid mapping). -/
def projField (m : Record) (k : String) : Value :=
  (lookupA m k).getD (.str "")

/-- The record `extractFields` produces on success: the declared fields in
declaration order, with the values found in the mapping. -/
def projRecord (fields : List (String × FieldType)) (m : Record) : Record :=
  fields.map (fun ft => (ft.1, projField m ft.1))

theorem lookupA_eq_none_of_not_mem {α : Type} {l : List (String × α)}
    {k : String} (h : k ∉ keysA l) : lookupA l k = none := by
  induction l with
  | nil => rfl
  | cons p rest ih =>
    simp only [keysA, List.map_cons, List.mem_cons] at h
    push_neg at h
    rw [lookupA, if_neg (Ne.symm h.1)]
    exact ih (by simpa [keysA] using h.2)

theorem mem_keysA_of_lookupA {α : Type} {l : List (String × α)} {k : String}
    {v : α} (h : lookupA l k = some v) : k ∈ keysA l := by
  induction l with
  | nil => simp [lookupA] at h
  | cons p rest ih =>
    rw [lookupA] at h
    by_cases hp : p.1 = k
    · simp [keysA, hp]
    · rw [if_neg hp] at h
      have hr := ih h
      simp only [keysA, List.map_cons, List.mem_cons]
      exact Or.inr hr

theorem keysA_projRecord (fields : List (String × FieldType)) (m : Record) :
    keysA (projRecord fields m) = keysA fields := by
  simp [keysA, projRecord, List.map_map, Function.comp]

theorem lookupA_projRecord_mem {fields : List (String × FieldType)}
    {k : String} (m : Record) (h : k ∈ keysA fields) :
    lookupA (projRecord fields m) k = some (projField m k) := by
  induction fields with
  | nil => simp [keysA] at h
  | cons ft rest ih =>
    simp only [projRecord, List.map_cons, lookupA]
    by_cases hf : ft.1 = k
    · simp [if_pos hf, hf]
    · simp only [if_neg hf]
      have hk : k ∈ keysA rest := by
        simp only [keysA, List.map_cons, List.mem_cons] at h
        rcases h with h' | h'
        · exact absurd h'.symm hf
        · exact h'
      exact ih hk

theorem lookupA_projRecord_not_mem {fields : List (String × FieldType)}
    {k : String} (m : Record) (h : k ∉ keysA fields) :
    lookupA (projRecord fields m) k = none := by
  apply lookupA_eq_none_of_not_mem
  rw [keysA_projRecord]
  exact h

theorem extractFields_ok {fields : List (String × FieldType)} {m : Record}
    (h : fields.all (fieldOk m) = true) :
    extractFields fields m = .ok (projRecord fields m) := by
  induction fields with
  | nil => rfl
  | cons ft rest ih =>
    rw [List.all_cons, Bool.and_eq_true] at h
    have hok := h.1
    unfold fieldOk at hok
    cases hv : lookupA m ft.1 with
    | none => rw [hv] at hok; exact absurd hok (by simp)
    | some v =>
      rw [hv] at hok
      simp only [extractFields, hv, if_pos hok, ih h.2, Except.map]
      simp [projRecord, projField, hv]

theorem fieldOk_projRecord {fields : List (String × FieldType)} {m : Record}
    (h : fields.all (fieldOk m) = true) :
    fields.all (fieldOk (projRecord fields m)) = true := by
  rw [List.all_eq_true] at h ⊢
  intro ft hft
  have hok := h ft hft
  unfold fieldOk at hok ⊢
  cases hv : lookupA m ft.1 with
  | none => rw [hv] at hok; exact absurd hok (by simp)
  | some v =>
    rw [hv] at hok
    have hmem : ft.1 ∈ keysA fields := by
      simp only [keysA, List.mem_map]
      exact ⟨ft, hft, rfl⟩
    rw [lookupA_projRecord_mem m hmem]
    simpa [projField, hv] using hok

theorem projField_projRecord {fields : List (String × FieldType)}
    {k : String} (m : Record) (h : k ∈ keysA fields) :
    projField (projRecord fields m) k = projField m k := by
  unfold projField
  rw [lookupA_projRecord_mem m h]
  exact Option.getD_some

theorem projRecord_projRecord (fields : List (String × FieldType))
    (m : Record) :
    projRecord fields (projRecord fields m) = projRecord fields m := by
  have hcong : ∀ ft ∈ fields,
      (ft.1, projField (projRecord fields m) ft.1)
        = (ft.1, projField m ft.1) := by
    intro ft hft
    have hmem : ft.1 ∈ keysA fields := by
      simp only [keysA, List.mem_map]
      exact ⟨ft, hft, rfl⟩
    rw [projField_projRecord m hmem]
  calc projRecord fields (projRecord fields m)
      = fields.map (fun ft => (ft.1, projField (projRecord fields m) ft.1)) :=
        rfl
    _ = fields.map (fun ft => (ft.1, projField m ft.1)) :=
        List.map_congr_left hcong
    _ = projRecord fields m := rfl

theorem Schema.load_projRecord (s : Schema) (m : Record)
    (h : s.fields.all (fieldOk m) = true) :
    s.load (projRecord s.fields m) = .ok (projRecord s.fields m) := by
  have hex : extractFields s.fields (projRecord s.fields m)
      = .ok (projRecord s.fields m) := by
    rw [extractFields_ok (fieldOk_projRecord h), projRecord_projRecord]
  unfold Schema.load
  cases s.unknown with
  | exclude => exact hex
  | raise =>
    have hkeys : (keysA (projRecord s.fields m)).all
        (fun k => decide (k ∈ keysA s.fields)) = true := by
      rw [keysA_projRecord, List.all_eq_true]
      intro k hk
      exact decide_eq_true hk
    rw [if_pos hkeys]
    exact hex

theorem Schema.roundtrip (s : Schema) (m : Record)
    (h : s.validFields m = true) :
    s.dump m = .ok (projRecord s.fields m) ∧
    s.load (projRecord s.fields m) = .ok (projRecord s.fields m) ∧
    ∀ k, lookupA (projRecord s.fields m) k = lookupA m k := by
  rw [Schema.validFields, Bool.and_eq_true] at h
  obtain ⟨h1, h2⟩ := h
  refine ⟨extractFields_ok h2, s.load_projRecord m h2, ?_⟩
  intro k
  by_cases hk : k ∈ keysA s.fields
  · rw [lookupA_projRecord_mem m hk]
    obtain ⟨ft, hft, hfk⟩ : ∃ ft ∈ s.fields, ft.1 = k := by
      simpa [keysA, List.mem_map] using hk
    have hok := List.all_eq_true.mp h2 ft hft
    unfold fieldOk at hok
    cases hv : lookupA m ft.1 with
    | none => rw [hv] at hok; exact absurd hok (by simp)
    | some v => rw [← hfk, hv]; simp [projField, hv]
  · rw [lookupA_projRecord_not_mem m hk]
    cases hm : lookupA m k with
    | none => rfl
    | some v =>
      exfalso
      have hmem := mem_keysA_of_lookupA hm
      have := List.all_eq_true.mp h1 k hmem
      exact hk (of_decide_eq_true this)

theorem lookupA_append_some {α : Type} {l1 l2 : List (String × α)}
    {k : String} {v : α} (h : lookupA l1 k = some v) :
    lookupA (l1 ++ l2) k = some v := by
  induction l1 with
  | nil => simp [lookupA] at h
  | cons p rest ih =>
    rw [lookupA] at h
    rw [List.cons_append, lookupA]
    by_cases hp : p.1 = k
    · rw [if_pos hp] at h ⊢
      exact h
    · rw [if_neg hp] at h ⊢
      exact ih h

theorem extractFields_congr (fields : List (String × FieldType))
    {m1 m2 : Record} (h : ∀ ft ∈ fields, lookupA m1 ft.1 = lookupA m2 ft.1) :
    extractFields fields m1 = extractFields fields m2 := by
  induction fields with
  | nil => rfl
  | cons ft rest ih =>
    have hhd := h ft (List.mem_cons_self ft rest)
    have htl := ih (fun g hg => h g (List.mem_cons_of_mem ft hg))
    rw [extractFields, extractFields, hhd, htl]

theorem extractFields_error {fields : List (String × FieldType)} {m : Record}
    {ft : String × FieldType} (hft : ft ∈ fields)
    (hbad : fieldOk m ft = false) :
    extractFields fields m = .error .validationError := by
  induction fields with
  | nil => cases hft
  | cons g rest ih =>
    rcases List.mem_cons.mp hft with hg | hmem
    · subst hg
      unfold fieldOk at hbad
      cases hv : lookupA m ft.1 with
      | none => simp [extractFields, hv]
      | some v =>
        rw [hv] at hbad
        have hbad' : v.hasType ft.2 = false := hbad
        simp [extractFields, hv, hbad']
    · cases hv : lookupA m g.1 with
      | none => simp [extractFields, hv]
      | some v =>
        cases hty : v.hasType g.2 with
        | false => simp [extractFields, hv, hty]
        | true => simp [extractFields, hv, hty, ih hmem, Except.map]

/-! ## Theorems -/

/-- C1: for every valid field mapping of a supported entity kind
(SignalEvent fields time/signal_guid/device_guid/val; Account fields
guid/name/token), applying the store's Schema dump and then Schema load
reproduces the original field mapping exactly, values and types preserved. -/
theorem schema_dump_load_roundtrip (m1 m2 : Record)
    (h1 : SignalEventsStore.schema.validFields m1 = true)
    (h2 : AccountStore.schema.validFields m2 = true) :
    (∃ r, SignalEventsStore.schema.dump m1 = .ok r ∧
       SignalEventsStore.schema.load r = .ok r ∧
       ∀ k, lookupA r k = lookupA m1 k) ∧
    (∃ r, AccountStore.schema.dump m2 = .ok r ∧
       AccountStore.schema.load r = .ok r ∧
       ∀ k, lookupA r k = lookupA m2 k) := by
  obtain ⟨d1, l1, p1⟩ := SignalEventsStore.schema.roundtrip m1 h1
  obtain ⟨d2, l2, p2⟩ := AccountStore.schema.roundtrip m2 h2
  exact ⟨⟨_, d1, l1, p1⟩, ⟨_, d2, l2, p2⟩⟩

/-- Witness for C1 at concrete field mappings of both entity kinds. -/
theorem schema_dump_load_roundtrip_witness :
    SignalEventsStore.schema.validFields
      [("time", .int 100), ("signal_guid", .str "s1"),
       ("device_guid", .str "d1"), ("val", .float (157/50))] = true ∧
    AccountStore.schema.validFields
      [("guid", .str "a1"), ("name", .str "Alice"),
       ("token", .str "tok123")] = true ∧
    ((∃ r, SignalEventsStore.schema.dump
        [("time", .int 100), ("signal_guid", .str "s1"),
         ("device_guid", .str "d1"), ("val", .float (157/50))] = .ok r ∧
       SignalEventsStore.schema.load r = .ok r ∧
       ∀ k, lookupA r k = lookupA
         [("time", .int 100), ("signal_guid", .str "s1"),
          ("device_guid", .str "d1"), ("val", .float (157/50))] k) ∧
     (∃ r, AccountStore.schema.dump
        [("guid", .str "a1"), ("name", .str "Alice"),
         ("token", .str "tok123")] = .ok r ∧
       AccountStore.schema.load r = .ok r ∧
       ∀ k, lookupA r k = lookupA
         [("guid", .str "a1"), ("name", .str "Alice"),
          ("token", .str "tok123")] k)) :=
  ⟨by decide, by decide,
   schema_dump_load_roundtrip _ _ (by decide) (by decide)⟩

/-- C9: the declared key/value Table Layouts encode each entity's identity:
SignalEventsStore names signal_guid as the HASH key and time as the RANGE key,
while AccountStore names guid as the sole HASH key with no range key. -/
theorem dynamo_key_schemas_encode_identity :
    dynamoKeySchema SignalEventsStore.tableInfo =
      some [⟨"signal_guid", "HASH"⟩, ⟨"time", "RANGE"⟩] ∧
    dynamoKeySchema AccountStore.tableInfo = some [⟨"guid", "HASH"⟩] := by
  exact ⟨rfl, rfl⟩

/-- C10: binding the table during construction replaces the instance's
`table` attribute — previously resolving to the binding method — with the
table object, so afterwards the attribute no longer resolves to anything
callable as the binding method, and no bound state resolves to it either:
the uninitialized-to-bound transition cannot be performed a second time
through the attribute. -/
theorem table_attr_shadowed_after_binding (db : DBHandle) (name : String) :
    Store.lookupTableAttr none = .bindingMethod ∧
    Store.lookupTableAttr (Store.bindTable db name none) = .bound ⟨db, name⟩ ∧
    (Store.lookupTableAttr (Store.bindTable db name none)).isBindingMethod
      = false ∧
    ∀ t : TableObj, (Store.lookupTableAttr (some t)).isBindingMethod = false := by
  exact ⟨rfl, rfl, rfl, fun _ => rfl⟩

/-- C2: loading a record that carries one extra key not declared by the
schema succeeds for AccountStore's Schema — returning the declared fields
with the extra key dropped — and fails with a ValidationError kind for
SignalEventsStore's Schema. -/
theorem unknown_field_policy_asymmetry
    (base1 base2 : Record) (k1 k2 : String) (v1 v2 : Value)
    (h1 : AccountStore.schema.validFields base1 = true)
    (_hk1 : k1 ∉ keysA AccountStore.schema.fields)
    (_h2 : SignalEventsStore.schema.validFields base2 = true)
    (hk2 : k2 ∉ keysA SignalEventsStore.schema.fields) :
    AccountStore.schema.load (base1 ++ [(k1, v1)])
      = .ok (projRecord AccountStore.schema.fields base1) ∧
    SignalEventsStore.schema.load (base2 ++ [(k2, v2)])
      = .error .validationError := by
  rw [Schema.validFields, Bool.and_eq_true] at h1
  constructor
  · have hcong : ∀ ft ∈ AccountStore.schema.fields,
        lookupA (base1 ++ [(k1, v1)]) ft.1 = lookupA base1 ft.1 := by
      intro ft hft
      have hok := List.all_eq_true.mp h1.2 ft hft
      unfold fieldOk at hok
      cases hv : lookupA base1 ft.1 with
      | none => rw [hv] at hok; exact absurd hok (by simp)
      | some w => exact lookupA_append_some hv
    show AccountStore.schema.load (base1 ++ [(k1, v1)]) = _
    have : AccountStore.schema.load (base1 ++ [(k1, v1)])
        = extractFields AccountStore.schema.fields (base1 ++ [(k1, v1)]) :=
      rfl
    rw [this, extractFields_congr _ hcong, extractFields_ok h1.2]
  · have hkeys : ((keysA (base2 ++ [(k2, v2)])).all
        (fun k => decide (k ∈ keysA SignalEventsStore.schema.fields)))
        = false := by
      rcases hall : (keysA (base2 ++ [(k2, v2)])).all
          (fun k => decide (k ∈ keysA SignalEventsStore.schema.fields)) with
        _ | _
      · rfl
      · exfalso
        have hmem : k2 ∈ keysA (base2 ++ [(k2, v2)]) := by
          simp [keysA, List.map_append]
        have := List.all_eq_true.mp hall k2 hmem
        exact hk2 (of_decide_eq_true this)
    show SignalEventsStore.schema.load (base2 ++ [(k2, v2)]) = _
    have hform : SignalEventsStore.schema.load (base2 ++ [(k2, v2)])
        = (if (keysA (base2 ++ [(k2, v2)])).all
              (fun k => decide (k ∈ keysA SignalEventsStore.schema.fields))
           then extractFields SignalEventsStore.schema.fields
             (base2 ++ [(k2, v2)])
           else .error .validationError) := rfl
    rw [hform, hkeys]
    rfl

/-- Witness for C2: a concrete Account record and a concrete SignalEvent
record, each extended with the extra key "extra". -/
theorem unknown_field_policy_asymmetry_witness :
    AccountStore.schema.validFields
      [("guid", .str "a1"), ("name", .str "Alice"),
       ("token", .str "tok123")] = true ∧
    "extra" ∉ keysA AccountStore.schema.fields ∧
    SignalEventsStore.schema.validFields
      [("time", .int 100), ("signal_guid", .str "s1"),
       ("device_guid", .str "d1"), ("val", .float (157/50))] = true ∧
    "extra" ∉ keysA SignalEventsStore.schema.fields ∧
    (AccountStore.schema.load
      ([("guid", .str "a1"), ("name", .str "Alice"),
        ("token", .str "tok123")] ++ [("extra", .str "x")])
      = .ok (projRecord AccountStore.schema.fields
          [("guid", .str "a1"), ("name", .str "Alice"),
           ("token", .str "tok123")]) ∧
     SignalEventsStore.schema.load
      ([("time", .int 100), ("signal_guid", .str "s1"),
        ("device_guid", .str "d1"), ("val", .float (157/50))]
        ++ [("extra", .str "x")])
      = .error .validationError) :=
  ⟨by decide, by decide, by decide, by decide,
   unknown_field_policy_asymmetry _ _ _ _ (.str "x") (.str "x")
     (by decide) (by decide) (by decide) (by decide)⟩

/-- C6: the Schema dump operation invoked by put fails with a
ValidationError kind — producing no Record — whenever a declared field is
missing from the input mapping or present with the wrong logical type. -/
theorem dump_rejects_missing_or_mistyped_field
    (m1 m2 : Record) (ft1 ft2 : String × FieldType)
    (hft1 : ft1 ∈ SignalEventsStore.schema.fields)
    (hbad1 : fieldOk m1 ft1 = false)
    (hft2 : ft2 ∈ AccountStore.schema.fields)
    (hbad2 : fieldOk m2 ft2 = false) :
    SignalEventsStore.schema.dump m1 = .error .validationError ∧
    AccountStore.schema.dump m2 = .error .validationError :=
  ⟨extractFields_error hft1 hbad1, extractFields_error hft2 hbad2⟩

/-- Witness for C6: an empty mapping (missing the time field) for
SignalEventsStore and a mapping with an integer guid (wrong logical type)
for AccountStore. -/
theorem dump_rejects_missing_or_mistyped_field_witness :
    ("time", FieldType.int) ∈ SignalEventsStore.schema.fields ∧
    fieldOk [] ("time", FieldType.int) = false ∧
    ("guid", FieldType.str) ∈ AccountStore.schema.fields ∧
    fieldOk [("guid", .int 7), ("name", .str "Alice"),
      ("token", .str "tok123")] ("guid", FieldType.str) = false ∧
    (SignalEventsStore.schema.dump [] = .error .validationError ∧
     AccountStore.schema.dump
       [("guid", .int 7), ("name", .str "Alice"),
        ("token", .str "tok123")] = .error .validationError) :=
  ⟨by decide, by decide, by decide, by decide,
   dump_rejects_missing_or_mistyped_field []
     [("guid", .int 7), ("name", .str "Alice"), ("token", .str "tok123")]
     ("time", FieldType.int) ("guid", FieldType.str)
     (by decide) (by decide) (by decide) (by decide)⟩

/-- Registries with no entries (the state of spec scenario 4, after clearing
local state). -/
def emptyRegistries : Registries :=
  ⟨fun _ => none, fun _ => none⟩

/-- The registered device of spec scenario 3. -/
def deviceD1 : Device := ⟨"d1"⟩

/-- The registered signal of spec scenario 3. -/
def signalS1 : Signal := ⟨"s1"⟩

/-- Registries holding exactly deviceD1 under "d1" and signalS1 under "s1". -/
def scenarioRegistries : Registries :=
  ⟨fun g => if g = "d1" then some deviceD1 else none,
   fun g => if g = "s1" then some signalS1 else none⟩

/-- The signal event of spec scenario 3: time 100, the registered device and
signal, value 3.14. -/
def scenarioEvent : SignalEvent := ⟨100, deviceD1, signalS1, 3.14⟩

/-- C3: a stored SignalEvent record whose device_guid — or, with the device
resolvable, whose signal_guid — is absent from the corresponding registry
makes query fail with a ReferenceNotFoundError kind for that record instead
of yielding a partially-populated entity. -/
theorem query_unresolved_reference_fails
    (reg : Registries) (r m : Record) (dg sg : String)
    (hload : SignalEventsStore.schema.load r = .ok m)
    (hdg : lookupA m "device_guid" = some (.str dg))
    (hsg : lookupA m "signal_guid" = some (.str sg)) :
    (reg.deviceByGuid dg = none →
       SignalEventsStore.query reg [r] = .error (.referenceNotFound dg)) ∧
    (∀ d, reg.deviceByGuid dg = some d → reg.signalByGuid sg = none →
       SignalEventsStore.query reg [r] = .error (.referenceNotFound sg)) := by
  have hf : (SignalEventsStore.schema.load r).bind
      (SignalEventsStore.makeSignalEvent reg)
      = SignalEventsStore.makeSignalEvent reg m := by
    rw [hload]
    rfl
  have hq : ∀ e : SpError,
      SignalEventsStore.makeSignalEvent reg m = .error e →
      SignalEventsStore.query reg [r] = .error e := by
    intro e he
    simp only [SignalEventsStore.query, mapEx, hf, he]
  constructor
  · intro hnone
    apply hq
    simp only [SignalEventsStore.makeSignalEvent, hdg, hnone]
  · intro d hd hnone
    apply hq
    simp only [SignalEventsStore.makeSignalEvent, hdg, hd, hsg, hnone]

/-- Witness for C3 at a concrete stored record, with empty registries. -/
theorem query_unresolved_reference_fails_witness :
    SignalEventsStore.schema.load
      [("time", .int 100), ("signal_guid", .str "s1"),
       ("device_guid", .str "d1"), ("val", .float 3.14)]
      = .ok [("time", .int 100), ("signal_guid", .str "s1"),
             ("device_guid", .str "d1"), ("val", .float 3.14)] ∧
    emptyRegistries.deviceByGuid "d1" = none ∧
    SignalEventsStore.query emptyRegistries
      [[("time", .int 100), ("signal_guid", .str "s1"),
        ("device_guid", .str "d1"), ("val", .float 3.14)]]
      = .error (.referenceNotFound "d1") :=
  ⟨rfl, rfl,
   (query_unresolved_reference_fails emptyRegistries
      [("time", .int 100), ("signal_guid", .str "s1"),
       ("device_guid", .str "d1"), ("val", .float 3.14)]
      [("time", .int 100), ("signal_guid", .str "s1"),
       ("device_guid", .str "d1"), ("val", .float 3.14)]
      "d1" "s1" rfl rfl rfl).1 rfl⟩

/-- C4: with Device "d1" and Signal "s1" registered, putting
SignalEvent(time=100, signal=s1, device=d1, val=3.14) and querying yields
exactly one SignalEvent whose device and signal are the registered registry
objects themselves (the reconstruction passes the registry's entry through
unchanged) and whose val equals 3.14. -/
theorem scenario_query_yields_registered_objects :
    (SignalEventsStore.put scenarioEvent []).bind
      (SignalEventsStore.query scenarioRegistries) = .ok [scenarioEvent] ∧
    scenarioEvent.device = deviceD1 ∧
    scenarioEvent.signal = signalS1 ∧
    scenarioEvent.val = 3.14 ∧
    scenarioRegistries.deviceByGuid "d1" = some deviceD1 ∧
    scenarioRegistries.signalByGuid "s1" = some signalS1 :=
  ⟨rfl, rfl, rfl, rfl, rfl, rfl⟩

/-- C5: the record put forwards to the table carries the entity's guid-valued
references resolved to guid strings: for SignalEventsStore, signal_guid is
entity.signal.guid, device_guid is entity.device.guid, and time and val are
the entity's; for AccountStore, guid, name, and token are the entity's. -/
theorem put_record_resolves_references (se : SignalEvent) (a : Account)
    (t1 t2 : List Record) :
    (SignalEventsStore.put se t1
       = .ok (t1 ++ [SignalEventsStore.fieldsOf se]) ∧
     lookupA (SignalEventsStore.fieldsOf se) "signal_guid"
       = some (.str se.signal.guid) ∧
     lookupA (SignalEventsStore.fieldsOf se) "device_guid"
       = some (.str se.device.guid) ∧
     lookupA (SignalEventsStore.fieldsOf se) "time" = some (.int se.time) ∧
     lookupA (SignalEventsStore.fieldsOf se) "val" = some (.float se.val)) ∧
    (AccountStore.put a t2 = .ok (t2 ++ [AccountStore.fieldsOf a]) ∧
     lookupA (AccountStore.fieldsOf a) "guid" = some (.str a.guid) ∧
     lookupA (AccountStore.fieldsOf a) "name" = some (.str a.name) ∧
     lookupA (AccountStore.fieldsOf a) "token" = some (.str a.token)) :=
  ⟨⟨rfl, rfl, rfl, rfl, rfl⟩, ⟨rfl, rfl, rfl, rfl⟩⟩

/-- C7: after put(E) succeeds — with the table's query returning every record
previously put, modelled by the stored-record sequence, and E's referenced
entities still registered under their guids — a subsequent query yields an
entity equal to E in every Schema-covered field (here: equal outright). -/
theorem put_then_query_roundtrip (se : SignalEvent) (a : Account)
    (reg : Registries)
    (hd : reg.deviceByGuid se.device.guid = some se.device)
    (hs : reg.signalByGuid se.signal.guid = some se.signal) :
    (SignalEventsStore.put se []).bind (SignalEventsStore.query reg)
      = .ok [se] ∧
    (AccountStore.put a []).bind AccountStore.query = .ok [a] := by
  constructor
  · have step : SignalEventsStore.makeSignalEvent reg
        (SignalEventsStore.fieldsOf se)
        = (match reg.deviceByGuid se.device.guid with
           | none => .error (.referenceNotFound se.device.guid)
           | some device =>
             (match reg.signalByGuid se.signal.guid with
              | none => .error (.referenceNotFound se.signal.guid)
              | some signal =>
                .ok ⟨se.time, device, signal, se.val⟩)) := rfl
    have hmake : SignalEventsStore.makeSignalEvent reg
        (SignalEventsStore.fieldsOf se) = .ok se := by
      rw [step, hd, hs]
    have hload' : SignalEventsStore.schema.load (SignalEventsStore.fieldsOf se)
        = .ok (SignalEventsStore.fieldsOf se) := rfl
    calc (SignalEventsStore.put se []).bind (SignalEventsStore.query reg)
        = SignalEventsStore.query reg [SignalEventsStore.fieldsOf se] := rfl
      _ = .ok [se] := by
          simp only [SignalEventsStore.query, mapEx, hload', Except.bind,
            hmake]
  · rfl

/-- Witness for C7 at the scenario fixtures and a concrete account. -/
theorem put_then_query_roundtrip_witness :
    scenarioRegistries.deviceByGuid scenarioEvent.device.guid
      = some scenarioEvent.device ∧
    scenarioRegistries.signalByGuid scenarioEvent.signal.guid
      = some scenarioEvent.signal ∧
    ((SignalEventsStore.put scenarioEvent []).bind
       (SignalEventsStore.query scenarioRegistries) = .ok [scenarioEvent] ∧
     (AccountStore.put ⟨"a1", "Alice", "tok123"⟩ []).bind AccountStore.query
       = .ok [⟨"a1", "Alice", "tok123"⟩]) :=
  ⟨rfl, rfl,
   put_then_query_roundtrip scenarioEvent ⟨"a1", "Alice", "tok123"⟩
     scenarioRegistries rfl rfl⟩

/-- C8: a database handle whose backend kind has no declared Table Layout for
the entity — any kind other than "sqlite" and "dynamodb" — makes the store's
create / table-selection logic fail with an UnsupportedBackendError kind. -/
theorem create_rejects_unsupported_backend (b : String)
    (h1 : b ≠ "sqlite") (h2 : b ≠ "dynamodb") :
    Store.selectLayout SignalEventsStore.tableInfo b
      = .error (.unsupportedBackend b) ∧
    Store.selectLayout AccountStore.tableInfo b
      = .error (.unsupportedBackend b) := by
  have hses : lookupA SignalEventsStore.tableInfo b = (none : Option Layout) := by
    unfold SignalEventsStore.tableInfo
    simp only [lookupA]
    rw [if_neg (Ne.symm h1), if_neg (Ne.symm h2)]
  have hacc : lookupA AccountStore.tableInfo b = (none : Option Layout) := by
    unfold AccountStore.tableInfo
    simp only [lookupA]
    rw [if_neg (Ne.symm h1), if_neg (Ne.symm h2)]
  constructor
  · unfold Store.selectLayout
    rw [hses]
  · unfold Store.selectLayout
    rw [hacc]

/-- Witness for C8 at the concrete unsupported backend kind "mongodb". -/
theorem create_rejects_unsupported_backend_witness :
    ("mongodb" : String) ≠ "sqlite" ∧ ("mongodb" : String) ≠ "dynamodb" ∧
    (Store.selectLayout SignalEventsStore.tableInfo "mongodb"
       = .error (.unsupportedBackend "mongodb") ∧
     Store.selectLayout AccountStore.tableInfo "mongodb"
       = .error (.unsupportedBackend "mongodb")) :=
  ⟨by decide, by decide,
   create_rejects_unsupported_backend "mongodb" (by decide) (by decide)⟩

end SignalPy
